import Mathlib

/-!
# Verification of the next-safe-action core

Shallow embedding of the two source components of this repository:

* the server-side action builder `createSafeActionClient` / `actionBuilder`
  (validation, context construction, handler invocation, error
  normalization), and
* the client-side hook machinery `getActionStatus`, `useActionCallbacks`,
  and the `reset` behaviour of `useAction` / `useOptimisticAction`.

Effectful JavaScript is embedded as explicit state passing: every run
returns the ordered list of observable effects (handler calls, context
construction, logging) together with an `Outcome` that is either a
resolved value (`ok`) or a rejected promise (`thrown`).

The modules `./utils` and `./types` are imported by the source but are not
part of the provided sources; the values they export
(`DEFAULT_SERVER_ERROR`, `isError`, `isNextRedirectError`,
`isNextNotFoundError`) are modelled from the specification, as marked on
each definition.
-/

namespace NextSafeAction

/-- A proper `Error` object of the host language, carrying a message. -/
structure ErrObj where
  message : String
deriving Repr, DecidableEq

/-- Classification of values thrown by user code during an action run.
`V` is the (opaque) type of thrown values that are neither navigation
signals nor proper `Error` objects.  The navigation signals are kept as
distinct constructors; the builder tests for them before it ever tests
`isError`, so their classification relative to `Error` never matters. -/
inductive Thrown (V : Type) where
  | redirectSignal : Thrown V
  | notFoundSignal : Thrown V
  | errorVal : ErrObj → Thrown V
  | nonError : V → Thrown V
deriving Repr, DecidableEq

/-- Modelled from the spec: `isNextRedirectError` from the missing
`./utils` module recognizes the host framework's internal redirect
navigation signal. -/
def isNextRedirectError {V : Type} : Thrown V → Bool
  | Thrown.redirectSignal => true
  | _ => false

/-- Modelled from the spec: `isNextNotFoundError` from the missing
`./utils` module recognizes the host framework's internal not-found
navigation signal. -/
def isNextNotFoundError {V : Type} : Thrown V → Bool
  | Thrown.notFoundSignal => true
  | _ => false

/-- Modelled from the spec: `isError` from the missing `./utils` module
recognizes proper `Error` objects (values that are "a proper error
object"). -/
def isError {V : Type} : Thrown V → Bool
  | Thrown.errorVal _ => true
  | _ => false

/-- Modelled from the spec: `DEFAULT_SERVER_ERROR` from the missing
`./utils` module, the fixed default generic server error message. -/
def DEFAULT_SERVER_ERROR : String :=
  "Something went wrong while executing the operation"

/-- Outcome of an async computation: a resolved value or a rejected
promise carrying the thrown value. -/
inductive Outcome (V : Type) (α : Type) where
  | ok : α → Outcome V α
  | thrown : Thrown V → Outcome V α
deriving Repr, DecidableEq

/-- Result of `schema.safeParse`: success with the parsed data, or failure
with the flattened `fieldErrors` mapping (field name to message list),
exactly what `parsedInput.error.flatten().fieldErrors` yields. -/
inductive ParseResult (P : Type) where
  | success : P → ParseResult P
  | failure : List (String × List String) → ParseResult P
deriving Repr, DecidableEq

/-- The context value handed to the server code: the empty object `\x7b\x7d`
used when `buildContext` is absent, or the awaited result of
`buildContext`. -/
inductive CtxVal (C : Type) where
  | empty : CtxVal C
  | built : C → CtxVal C
deriving Repr, DecidableEq

/-- The action result shape.  The server builder populates at most one of
the four optional fields; `fetchError?` exists because the client hooks
share this shape (`HookResponse`). -/
structure ActionResult (D : Type) (V : Type) where
  data? : Option D := none
  validationError? : Option (List (String × List String)) := none
  serverError? : Option String := none
  fetchError? : Option (Thrown V) := none
deriving Repr, DecidableEq

/-- Observable effects of one invocation of a built action, in order. -/
inductive Effect (P : Type) (C : Type) (V : Type) where
  | buildContextCall : Effect P C V
  | serverCodeCall : P → CtxVal C → Effect P C V
  | serverErrorLogCall : ErrObj → Effect P C V
  | consoleError : String → Effect P C V
  | consoleWarn : Thrown V → Effect P C V
  | returnedServerErrorCall : ErrObj → Effect P C V
deriving Repr, DecidableEq

/-- The `serverError` payload returned by `handleReturnedServerError`. -/
structure ServerErrorPayload where
  serverError : String
deriving Repr, DecidableEq

/-- The options accepted by `createSafeActionClient`.  Each async callback
is embedded by its observable behaviour for the invocation at hand:
`buildContext?` is the outcome of awaiting `buildContext()` (absent when
the option is not given), and the two error hooks map the caught error to
the outcome of awaiting them. -/
structure SafeClientOpts (C : Type) (V : Type) where
  buildContext? : Option (Outcome V C) := none
  handleReturnedServerError? : Option (ErrObj → Outcome V ServerErrorPayload) := none
  handleServerErrorLog? : Option (ErrObj → Outcome V Unit) := none

/-- The resolved server-error log hook of `createSafeActionClient`: the
configured hook, or the default that writes the error message via
`console.error`.  Returns the effects the hook itself emits and its
outcome. -/
def handleServerErrorLogResolved {P C V : Type} (opts : SafeClientOpts C V)
    (e : ErrObj) : List (Effect P C V) × Outcome V Unit :=
  match opts.handleServerErrorLog? with
  | some f => ([], f e)
  | none => ([Effect.consoleError ("Action error: " ++ e.message)], Outcome.ok ())

/-- The resolved returned-server-error hook of `createSafeActionClient`:
the configured hook, or the default that masks the error with
`DEFAULT_SERVER_ERROR`. -/
def handleReturnedServerErrorResolved {C V : Type} (opts : SafeClientOpts C V)
    (e : ErrObj) : Outcome V ServerErrorPayload :=
  match opts.handleReturnedServerError? with
  | some f => f e
  | none => Outcome.ok ⟨DEFAULT_SERVER_ERROR⟩

/-- Context construction step of the built action: evaluates
`(await createOpts?.buildContext?.()) ?? \x7b\x7d`.  When `buildContext` is
absent no call happens and the empty context is used; when present it is
called (effect recorded) and its outcome is awaited. -/
def buildCtxStep {P : Type} {C V : Type} (opts : SafeClientOpts C V) :
    List (Effect P C V) × Outcome V (CtxVal C) :=
  match opts.buildContext? with
  | none => ([], Outcome.ok CtxVal.empty)
  | some (Outcome.ok c) => ([Effect.buildContextCall], Outcome.ok (CtxVal.built c))
  | some (Outcome.thrown e) => ([Effect.buildContextCall], Outcome.thrown e)

/-- Continuation of the `try` block after the server code has settled:
the server code call is recorded after the context trace, and its outcome
becomes the result (`data` on success, the thrown value otherwise). -/
def afterServerCode {P C V D : Type} (ctr : List (Effect P C V)) (p : P)
    (ctx : CtxVal C) (res : Outcome V D) :
    List (Effect P C V) × Outcome V (ActionResult D V) :=
  match res with
  | Outcome.thrown e => (ctr ++ [Effect.serverCodeCall p ctx], Outcome.thrown e)
  | Outcome.ok d =>
      (ctr ++ [Effect.serverCodeCall p ctx], Outcome.ok { data? := some d })

/-- Continuation of the `try` block after the context step has settled: a
throw from `buildContext` propagates; otherwise the server code is
invoked exactly once with the parsed data and the context. -/
def afterCtx {P C V D : Type} (serverCode : P → CtxVal C → Outcome V D)
    (p : P) (step : List (Effect P C V) × Outcome V (CtxVal C)) :
    List (Effect P C V) × Outcome V (ActionResult D V) :=
  match step with
  | (ctr, Outcome.thrown e) => (ctr, Outcome.thrown e)
  | (ctr, Outcome.ok ctx) => afterServerCode ctr p ctx (serverCode p ctx)

/-- Body of the `try` block of the built action, after `safeParse` has
produced `parsed`: on parse failure return the flattened field errors as
`validationError` immediately (no context construction, no server code
call, no logging); on success construct the context and run the server
code. -/
def tryBody {P C V D : Type} (opts : SafeClientOpts C V)
    (serverCode : P → CtxVal C → Outcome V D) (parsed : ParseResult P) :
    List (Effect P C V) × Outcome V (ActionResult D V) :=
  match parsed with
  | ParseResult.failure fieldErrors =>
      ([], Outcome.ok { validationError? := some fieldErrors })
  | ParseResult.success parsedData =>
      afterCtx serverCode parsedData (buildCtxStep opts)

/-- Continuation of the `catch` block after the returned-server-error
hook has settled: its call is recorded; a throw from it propagates
(nothing catches it), otherwise its payload is the returned result. -/
def afterReturnedHook {P C V D : Type} (err : ErrObj)
    (ltr : List (Effect P C V)) (retOut : Outcome V ServerErrorPayload) :
    List (Effect P C V) × Outcome V (ActionResult D V) :=
  match retOut with
  | Outcome.thrown t =>
      (Effect.serverErrorLogCall err :: ltr
        ++ [Effect.returnedServerErrorCall err], Outcome.thrown t)
  | Outcome.ok payload =>
      (Effect.serverErrorLogCall err :: ltr
        ++ [Effect.returnedServerErrorCall err],
       Outcome.ok { serverError? := some payload.serverError })

/-- Continuation of the `catch` block after the log hook has settled: its
call is recorded; a throw from it propagates (nothing catches it),
otherwise the returned-server-error hook runs next. -/
def afterLogHook {P C V D : Type} (opts : SafeClientOpts C V) (err : ErrObj)
    (step : List (Effect P C V) × Outcome V Unit) :
    List (Effect P C V) × Outcome V (ActionResult D V) :=
  match step with
  | (ltr, Outcome.thrown t) =>
      (Effect.serverErrorLogCall err :: ltr, Outcome.thrown t)
  | (ltr, Outcome.ok _) =>
      afterReturnedHook err ltr (handleReturnedServerErrorResolved opts err)

/-- The `catch` block of the built action: rethrow navigation signals
unchanged; degrade non-`Error` values to the generic server error after a
`console.warn`; otherwise await the log hook and then the returned-error
hook. -/
def catchBlock {P : Type} {C V D : Type} (opts : SafeClientOpts C V)
    (e : Thrown V) : List (Effect P C V) × Outcome V (ActionResult D V) :=
  if isNextRedirectError e || isNextNotFoundError e then
    ([], Outcome.thrown e)
  else
    match e with
    | Thrown.errorVal err =>
        afterLogHook opts err (handleServerErrorLogResolved opts err)
    | _ =>
        ([Effect.consoleWarn e],
         Outcome.ok { serverError? := some DEFAULT_SERVER_ERROR })

/-- Combines the settled `try` body with the `catch` block: a resolved
value passes through, a thrown value enters the `catch` block, whose
effects extend the trace. -/
def runWithCatch {P C V D : Type} (opts : SafeClientOpts C V)
    (t : List (Effect P C V) × Outcome V (ActionResult D V)) :
    List (Effect P C V) × Outcome V (ActionResult D V) :=
  match t with
  | (tr, Outcome.ok r) => (tr, Outcome.ok r)
  | (tr, Outcome.thrown e) =>
      (tr ++ (catchBlock (P := P) (D := D) opts e).1,
       (catchBlock (P := P) (D := D) opts e).2)

/-- One invocation of the callable returned by `actionBuilder`: run the
schema parse and the `try` body, and on a thrown value the `catch`
block. -/
def runAction {I P C V D : Type} (opts : SafeClientOpts C V)
    (schema : I → ParseResult P) (serverCode : P → CtxVal C → Outcome V D)
    (clientInput : I) : List (Effect P C V) × Outcome V (ActionResult D V) :=
  runWithCatch opts (tryBody opts serverCode (schema clientInput))

/-- True exactly on `serverCodeCall` effects. -/
def isServerCodeCall {P C V : Type} : Effect P C V → Bool
  | Effect.serverCodeCall _ _ => true
  | _ => false

/-- True exactly on `buildContextCall` effects. -/
def isBuildContextCall {P C V : Type} : Effect P C V → Bool
  | Effect.buildContextCall => true
  | _ => false

/-- True on every logging-related effect: the server error log hook call,
the default hook's `console.error`, the `console.warn` for unrecognized
thrown values, and the returned-server-error mapper call. -/
def isLoggingEffect {P C V : Type} : Effect P C V → Bool
  | Effect.serverErrorLogCall _ => true
  | Effect.consoleError _ => true
  | Effect.consoleWarn _ => true
  | Effect.returnedServerErrorCall _ => true
  | _ => false

/-- True exactly on `serverErrorLogCall` effects. -/
def isServerErrorLogCall {P C V : Type} : Effect P C V → Bool
  | Effect.serverErrorLogCall _ => true
  | _ => false

/-- True exactly on `returnedServerErrorCall` effects. -/
def isReturnedServerErrorCall {P C V : Type} : Effect P C V → Bool
  | Effect.returnedServerErrorCall _ => true
  | _ => false

/-- True exactly on `serverErrorLogCall` effects carrying error `err`. -/
def isLogCallOf {P C V : Type} (err : ErrObj) : Effect P C V → Bool
  | Effect.serverErrorLogCall e => e = err
  | _ => false

/-- Number of populated variants among the four result fields. -/
def variantCount {D V : Type} (r : ActionResult D V) : Nat :=
  (if r.data?.isSome then 1 else 0) + (if r.validationError?.isSome then 1 else 0)
    + (if r.serverError?.isSome then 1 else 0)
    + (if r.fetchError?.isSome then 1 else 0)

/-- The four hook statuses. -/
inductive HookActionStatus where
  | idle : HookActionStatus
  | executing : HookActionStatus
  | hasSucceded : HookActionStatus
  | hasErrored : HookActionStatus
deriving Repr, DecidableEq

/-- `getActionStatus` from the hooks module: derives the status from the
`isExecuting` flag and the last response (a `HookResponse`, which shares
the `ActionResult` shape). -/
def getActionStatus {D V : Type} (isExecuting : Bool)
    (response : ActionResult D V) : HookActionStatus :=
  if isExecuting then
    HookActionStatus.executing
  else if response.data?.isSome then
    HookActionStatus.hasSucceded
  else if response.validationError?.isSome || response.serverError?.isSome
      || response.fetchError?.isSome then
    HookActionStatus.hasErrored
  else
    HookActionStatus.idle

/-- The callbacks argument of the hooks: each of `onSuccess` / `onError`
is an optional function reference, embedded by an identity number (React
compares function references by identity). -/
structure Cb where
  onSuccess? : Option Nat := none
  onError? : Option Nat := none
deriving Repr, DecidableEq

/-- Per-instance state of `useActionCallbacks`: the two refs created by
`useRef(cb?.onSuccess)` / `useRef(cb?.onError)` (initialized from the
callbacks passed on the first render and never reassigned afterwards),
and the dependency tuple of the last `useEffect` run.  The `reset`
dependency is referentially stable (`useCallback` with empty deps) and
therefore omitted from the tuple; the `response` dependency is compared
by object identity, embedded as a version number. -/
structure CallbacksState where
  onSuccessRef : Option Nat
  onErrorRef : Option Nat
  prevDeps? : Option (HookActionStatus × Nat)
deriving Repr, DecidableEq

/-- Mount of `useActionCallbacks`: the refs capture the callback
references passed on the first render; no effect has run yet. -/
def useActionCallbacksInit (cb? : Option Cb) : CallbacksState :=
  { onSuccessRef := cb?.bind Cb.onSuccess?
    onErrorRef := cb?.bind Cb.onError?
    prevDeps? := none }

/-- A callback invocation observed from `useActionCallbacks`: which
function reference fired, with the `response.data` respectively the whole
response, and the stored input. -/
inductive FireEvent (J : Type) (D : Type) (V : Type) where
  | successFire : Nat → Option D → Option J → FireEvent J D V
  | errorFire : Nat → ActionResult D V → Option J → FireEvent J D V
deriving Repr, DecidableEq

/-- The body of the `useActionCallbacks` effect: `onSuccess` fires when
the ref holds a callback and the status is `hasSucceded` (with
`response.data` and the stored input), otherwise `onError` fires when its
ref holds a callback and the status is `hasErrored`. -/
def effectFires {J D V : Type} (sRef eRef : Option Nat)
    (status : HookActionStatus) (response : ActionResult D V)
    (input? : Option J) : List (FireEvent J D V) :=
  match sRef, eRef, status with
  | some sId, _, HookActionStatus.hasSucceded =>
      [FireEvent.successFire sId response.data? input?]
  | _, some eId, HookActionStatus.hasErrored =>
      [FireEvent.errorFire eId response input?]
  | _, _, _ => []

/-- One committed render of a component using `useActionCallbacks`: the
effect runs exactly when its dependency tuple `(status, response)`
differs from the previous run (React re-runs an effect only when a
dependency changed; `respId` is the response object identity).  The refs
are never written, so the callbacks passed on later renders are
ignored. -/
def useActionCallbacksCommit {J D V : Type} (st : CallbacksState)
    (status : HookActionStatus) (respId : Nat) (response : ActionResult D V)
    (input? : Option J) : CallbacksState × List (FireEvent J D V) :=
  if st.prevDeps? = some (status, respId) then
    (st, [])
  else
    ({ st with prevDeps? := some (status, respId) },
     effectFires st.onSuccessRef st.onErrorRef status response input?)

/-- One committed render as seen by `useActionCallbacks`: the callbacks
passed on this render, the derived status, the response (with identity
`respId`) and the stored input. -/
structure RenderInput (J : Type) (D : Type) (V : Type) where
  cb? : Option Cb
  status : HookActionStatus
  respId : Nat
  response : ActionResult D V
  input? : Option J

/-- Folds `useActionCallbacksCommit` over a render sequence from a given
state, collecting the fired callbacks in order. -/
def runCallbacksFrom {J D V : Type} (st : CallbacksState) :
    List (RenderInput J D V) → List (FireEvent J D V)
  | [] => []
  | r :: rest =>
      (useActionCallbacksCommit st r.status r.respId r.response r.input?).2
        ++ runCallbacksFrom
            (useActionCallbacksCommit st r.status r.respId r.response r.input?).1
            rest

/-- A whole lifetime of `useActionCallbacks`: the refs are initialized
from the callbacks of the first render, then every committed render runs
the effect policy. -/
def runCallbacks {J D V : Type} :
    List (RenderInput J D V) → List (FireEvent J D V)
  | [] => []
  | r :: rest => runCallbacksFrom (useActionCallbacksInit r.cb?) (r :: rest)

/-- Identity of the function reference a fire event invoked. -/
def fireCbId {J D V : Type} : FireEvent J D V → Nat
  | FireEvent.successFire i _ _ => i
  | FireEvent.errorFire i _ _ => i

/-- True exactly on `successFire` events. -/
def isSuccessFire {J D V : Type} : FireEvent J D V → Bool
  | FireEvent.successFire _ _ _ => true
  | _ => false

/-- Hook state of `useAction`: the `useTransition` pending flag, the
`response` state cell (with its object identity `respId`) and the `input`
state cell. -/
structure UseActionState (J : Type) (D : Type) (V : Type) where
  isExecuting : Bool
  response : ActionResult D V
  respId : Nat
  input? : Option J
deriving Repr, DecidableEq

/-- Initial `useAction` state: not executing, empty response, no input. -/
def useActionInit {J D V : Type} : UseActionState J D V :=
  { isExecuting := false, response := {}, respId := 0, input? := none }

/-- `reset` of `useAction`: calls `setResponse(\x7b\x7d)` and nothing else; a
fresh empty response object is stored (new identity). -/
def useActionReset {J D V : Type} (s : UseActionState J D V) :
    UseActionState J D V :=
  { s with response := {}, respId := s.respId + 1 }

/-- Hook state of `useOptimisticAction`: the `response` state cell (with
object identity), the `input` state cell, and the in-flight marker of the
optimistic state. -/
structure UseOptimisticState (J : Type) (D : Type) (V : Type) where
  response : ActionResult D V
  respId : Nat
  input? : Option J
  optIsExecuting : Bool
deriving Repr, DecidableEq

/-- `reset` of `useOptimisticAction`: calls `setResponse(\x7b\x7d)` and
nothing else. -/
def useOptimisticReset {J D V : Type} (s : UseOptimisticState J D V) :
    UseOptimisticState J D V :=
  { s with response := {}, respId := s.respId + 1 }

/-- State-changing occurrences in a `useAction` lifetime: `execute(i)`
stores the input and enters the transition; a settled action promise
stores its result as a fresh response object and ends the transition;
`reset` stores a fresh empty response object. -/
inductive HookEvent (J : Type) (D : Type) (V : Type) where
  | execStart : J → HookEvent J D V
  | settle : ActionResult D V → HookEvent J D V
  | doReset : HookEvent J D V

/-- Effect of one `HookEvent` on the `useAction` state. -/
def useActionApply {J D V : Type} (s : UseActionState J D V) :
    HookEvent J D V → UseActionState J D V
  | HookEvent.execStart i => { s with input? := some i, isExecuting := true }
  | HookEvent.settle r =>
      { s with response := r, respId := s.respId + 1, isExecuting := false }
  | HookEvent.doReset => useActionReset s

/-- The committed render of a `useAction` instance in state `s`: runs the
`useActionCallbacks` effect policy with the derived status, the stored
response (and its identity) and the stored input. -/
def simCommitStep {J D V : Type} (s : UseActionState J D V)
    (cst : CallbacksState) : CallbacksState × List (FireEvent J D V) :=
  useActionCallbacksCommit cst (getActionStatus s.isExecuting s.response)
    s.respId s.response s.input?

/-- Runs a `useAction` instance through a list of events: each event
updates the hook state and commits a render (running the
`useActionCallbacks` effect); the callback invocations are collected. -/
def simUseActionFrom {J D V : Type} (s : UseActionState J D V)
    (cst : CallbacksState) : List (HookEvent J D V) → List (FireEvent J D V)
  | [] => []
  | ev :: rest =>
      (simCommitStep (useActionApply s ev) cst).2
        ++ simUseActionFrom (useActionApply s ev)
            (simCommitStep (useActionApply s ev) cst).1 rest

/-- A whole `useAction` lifetime: mount with the given callbacks, commit
the initial render, then process the events. -/
def simUseAction {J D V : Type} (cb? : Option Cb)
    (events : List (HookEvent J D V)) : List (FireEvent J D V) :=
  (simCommitStep (@useActionInit J D V) (useActionCallbacksInit cb?)).2
    ++ simUseActionFrom (@useActionInit J D V)
        (simCommitStep (@useActionInit J D V) (useActionCallbacksInit cb?)).1
        events

/-! ## Helper lemmas -/

/-- The trace of the context construction step is empty or the single
`buildContextCall`. -/
theorem buildCtxStep_trace {P C V : Type} (opts : SafeClientOpts C V)
    (ctr : List (Effect P C V)) (out : Outcome V (CtxVal C))
    (h : buildCtxStep opts = (ctr, out)) :
    ctr = [] ∨ ctr = [Effect.buildContextCall] := by
  rcases hb : opts.buildContext? with _ | oc
  · rw [buildCtxStep, hb] at h
    exact Or.inl (congrArg Prod.fst h).symm
  · rcases oc with c | e <;> rw [buildCtxStep, hb] at h <;>
      exact Or.inr (congrArg Prod.fst h).symm

/-- On parse success with a context and a normally returning server code,
the `try` body returns the data result and records the single server code
call after the context trace. -/
theorem tryBody_success_ok {P C V D : Type} (opts : SafeClientOpts C V)
    (serverCode : P → CtxVal C → Outcome V D) (p : P)
    (ctr : List (Effect P C V)) (ctx : CtxVal C) (d : D)
    (hctx : buildCtxStep opts = (ctr, Outcome.ok ctx))
    (hcode : serverCode p ctx = Outcome.ok d) :
    tryBody opts serverCode (ParseResult.success p)
      = (ctr ++ [Effect.serverCodeCall p ctx], Outcome.ok { data? := some d }) := by
  simp only [tryBody, hctx, afterCtx, hcode, afterServerCode]

/-- On parse success with a context and a throwing server code, the `try`
body throws that value after recording the single server code call. -/
theorem tryBody_success_thrown {P C V D : Type} (opts : SafeClientOpts C V)
    (serverCode : P → CtxVal C → Outcome V D) (p : P)
    (ctr : List (Effect P C V)) (ctx : CtxVal C) (e : Thrown V)
    (hctx : buildCtxStep opts = (ctr, Outcome.ok ctx))
    (hcode : serverCode p ctx = Outcome.thrown e) :
    tryBody opts serverCode (ParseResult.success p)
      = (ctr ++ [Effect.serverCodeCall p ctx],
         (Outcome.thrown e : Outcome V (ActionResult D V))) := by
  simp only [tryBody, hctx, afterCtx, hcode, afterServerCode]

/-- On parse success with a throwing context construction, the `try` body
throws that value with only the context call recorded. -/
theorem tryBody_ctx_thrown {P C V D : Type} (opts : SafeClientOpts C V)
    (serverCode : P → CtxVal C → Outcome V D) (p : P)
    (ctr : List (Effect P C V)) (e : Thrown V)
    (hctx : buildCtxStep opts = (ctr, Outcome.thrown e)) :
    tryBody opts serverCode (ParseResult.success p)
      = (ctr, (Outcome.thrown e : Outcome V (ActionResult D V))) := by
  simp only [tryBody, hctx, afterCtx]

/-- On parse failure the `try` body returns the validation error result
with an empty trace. -/
theorem tryBody_failure {P C V D : Type} (opts : SafeClientOpts C V)
    (serverCode : P → CtxVal C → Outcome V D)
    (fe : List (String × List String)) :
    tryBody opts serverCode (ParseResult.failure fe)
      = ([], Outcome.ok { validationError? := some fe }) := rfl

/-- Every effect in the trace of the `try` body is a context construction
or a server code call, never a logging effect. -/
theorem tryBody_no_logging {P C V D : Type} (opts : SafeClientOpts C V)
    (serverCode : P → CtxVal C → Outcome V D) (parsed : ParseResult P)
    (tr : List (Effect P C V)) (out : Outcome V (ActionResult D V))
    (h : tryBody opts serverCode parsed = (tr, out)) :
    ∀ eff ∈ tr, isLoggingEffect eff = false := by
  rcases parsed with p | fe
  · rcases hbc : buildCtxStep (P := P) opts with ⟨ctr, cout⟩
    have hctr : ∀ eff ∈ ctr, isLoggingEffect eff = false := by
      rcases buildCtxStep_trace opts ctr cout hbc with h2 | h2 <;> subst h2
      · intro eff hm; simp at hm
      · intro eff hm; simp at hm; subst hm; rfl
    rcases cout with ctx | e2
    · rcases hsc : serverCode p ctx with d | e3
      · rw [tryBody_success_ok opts serverCode p ctr ctx d hbc hsc] at h
        injection h with h1 h2
        subst h1
        intro eff hm
        rcases List.mem_append.1 hm with hm | hm
        · exact hctr eff hm
        · simp at hm; subst hm; rfl
      · rw [tryBody_success_thrown opts serverCode p ctr ctx e3 hbc hsc] at h
        injection h with h1 h2
        subst h1
        intro eff hm
        rcases List.mem_append.1 hm with hm | hm
        · exact hctr eff hm
        · simp at hm; subst hm; rfl
    · rw [tryBody_ctx_thrown opts serverCode p ctr e2 hbc] at h
      injection h with h1 h2
      subst h1
      exact hctr
  · rw [tryBody_failure opts serverCode fe] at h
    injection h with h1 h2
    subst h1
    intro eff hm
    simp at hm

/-- A resolved `try` body passes through the `catch` combinator. -/
theorem runWithCatch_ok {P C V D : Type} (opts : SafeClientOpts C V)
    (tr : List (Effect P C V)) (r : ActionResult D V) :
    runWithCatch opts (tr, Outcome.ok r) = (tr, Outcome.ok r) := rfl

/-- A thrown `try` body enters the `catch` block. -/
theorem runWithCatch_thrown {P C V D : Type} (opts : SafeClientOpts C V)
    (tr : List (Effect P C V)) (e : Thrown V) :
    runWithCatch opts (tr, (Outcome.thrown e : Outcome V (ActionResult D V)))
      = (tr ++ (catchBlock (P := P) (D := D) opts e).1,
         (catchBlock (P := P) (D := D) opts e).2) := rfl

/-- The `catch` block rethrows navigation signals with no effects. -/
theorem catchBlock_nav {P C V D : Type} (opts : SafeClientOpts C V)
    (e : Thrown V) (hnav : (isNextRedirectError e || isNextNotFoundError e) = true) :
    catchBlock (P := P) (D := D) opts e = ([], Outcome.thrown e) := by
  simp only [catchBlock, hnav, if_true]

/-- The `catch` block degrades a non-`Error` value to the generic server
error after a `console.warn`, touching neither configured hook. -/
theorem catchBlock_nonError {P C V D : Type} (opts : SafeClientOpts C V)
    (v : V) :
    catchBlock (P := P) (D := D) opts (Thrown.nonError v)
      = ([Effect.consoleWarn (Thrown.nonError v)],
         Outcome.ok { serverError? := some DEFAULT_SERVER_ERROR }) := rfl

/-- With no custom hooks configured, the `catch` block on a proper error
invokes the default log hook (which writes to `console.error`) and the
default returned-error hook, and returns the generic server error. -/
theorem catchBlock_error_default {P C V D : Type} (opts : SafeClientOpts C V)
    (err : ErrObj) (hlog : opts.handleServerErrorLog? = none)
    (hret : opts.handleReturnedServerError? = none) :
    catchBlock (P := P) (D := D) opts (Thrown.errorVal err)
      = ([Effect.serverErrorLogCall err,
          Effect.consoleError ("Action error: " ++ err.message),
          Effect.returnedServerErrorCall err],
         Outcome.ok { serverError? := some DEFAULT_SERVER_ERROR }) := by
  simp only [catchBlock, isNextRedirectError, isNextNotFoundError, Bool.or_self,
    Bool.false_eq_true, if_false, handleServerErrorLogResolved, hlog,
    afterLogHook, handleReturnedServerErrorResolved, hret, afterReturnedHook]
  rfl

/-! ## C1: parse failure short-circuits to the validation error -/

/-- C1: for every client input that fails schema parsing, the built
action resolves to a result with only `validationError` populated, equal
to the schema's flattened mapping of the invalid field names, whose
message lists are non-empty whenever the schema's flattened mapping has
non-empty lists (as the validation library guarantees); the effect trace
is empty, so the handler is never invoked, the context is never
constructed, and no logging hook fires. -/
theorem claim_C1_parse_failure {I P C V D : Type} (opts : SafeClientOpts C V)
    (schema : I → ParseResult P) (serverCode : P → CtxVal C → Outcome V D)
    (i : I) (fe : List (String × List String))
    (hfail : schema i = ParseResult.failure fe)
    (hwf : ∀ p ∈ fe, p.2 ≠ []) :
    runAction opts schema serverCode i
      = ([], Outcome.ok { validationError? := some fe }) ∧
    ∀ ve p, runAction opts schema serverCode i
        = ([], Outcome.ok { validationError? := some ve }) →
      p ∈ ve → p.2 ≠ [] := by
  have hrun : runAction opts schema serverCode i
      = ([], Outcome.ok { validationError? := some fe }) := by
    simp only [runAction, hfail, tryBody_failure, runWithCatch]
  refine ⟨hrun, ?_⟩
  intro ve p hrun2 hmem
  rw [hrun] at hrun2
  injection hrun2 with h1 h2
  cases Outcome.ok.inj h2
  exact hwf p hmem

/-- Witness for C1 at a concrete failing input. -/
theorem claim_C1_parse_failure_witness :
    runAction ({} : SafeClientOpts Unit Nat)
        (fun _ : Nat => ParseResult.failure (P := Nat) [("x", ["required"])])
        (fun _ _ => Outcome.ok (0 : Nat)) 0
      = ([], Outcome.ok { validationError? := some [("x", ["required"])] }) ∧
    ∀ ve p, runAction ({} : SafeClientOpts Unit Nat)
        (fun _ : Nat => ParseResult.failure (P := Nat) [("x", ["required"])])
        (fun _ _ => Outcome.ok (0 : Nat)) 0
        = ([], Outcome.ok { validationError? := some ve }) →
      p ∈ ve → p.2 ≠ [] :=
  claim_C1_parse_failure _ _ _ _ _ rfl (by decide)

/-! ## C7: the status derivation -/

/-- C7: the status derived by `getActionStatus` is a function of exactly
the executing flag and the response, with the priority order: executing
wins over everything; then a defined `data` yields `hasSucceded`; then
any of `validationError`, `serverError`, `fetchError` yields
`hasErrored`; otherwise `idle`. -/
theorem claim_C7_status_derivation {D V : Type} :
    (∀ r : ActionResult D V,
       getActionStatus true r = HookActionStatus.executing) ∧
    (∀ r : ActionResult D V, r.data?.isSome = true →
       getActionStatus false r = HookActionStatus.hasSucceded) ∧
    (∀ r : ActionResult D V, r.data? = none →
       (r.validationError?.isSome || r.serverError?.isSome
         || r.fetchError?.isSome) = true →
       getActionStatus false r = HookActionStatus.hasErrored) ∧
    (∀ r : ActionResult D V, r.data? = none → r.validationError? = none →
       r.serverError? = none → r.fetchError? = none →
       getActionStatus false r = HookActionStatus.idle) := by
  refine ⟨?_, ?_, ?_, ?_⟩ <;> intro r <;> intros <;>
    simp [getActionStatus, *]

/-- Witness for C7 at the four concrete scenarios of the spec. -/
theorem claim_C7_status_derivation_witness :
    getActionStatus true ({ data? := some 1 } : ActionResult Nat Nat)
      = HookActionStatus.executing ∧
    getActionStatus false ({ data? := some 1 } : ActionResult Nat Nat)
      = HookActionStatus.hasSucceded ∧
    getActionStatus false ({ serverError? := some "x" } : ActionResult Nat Nat)
      = HookActionStatus.hasErrored ∧
    getActionStatus false ({} : ActionResult Nat Nat)
      = HookActionStatus.idle :=
  ⟨(@claim_C7_status_derivation Nat Nat).1 _,
   (@claim_C7_status_derivation Nat Nat).2.1 _ (by decide),
   (@claim_C7_status_derivation Nat Nat).2.2.1 _ (by decide) (by decide),
   (@claim_C7_status_derivation Nat Nat).2.2.2 _ (by decide) (by decide)
     (by decide) (by decide)⟩

/-! ## C2: parse success invokes the handler once with parsed input -/

/-- C2: for every client input that passes schema parsing, when the
context step and the handler settle normally, the handler is invoked
exactly once (one `serverCodeCall` in the trace), receiving the parsed
data (not the raw client input) and the context value (the awaited
result of `buildContext`, or the empty context when `buildContext` is
absent); the result has only `data` populated, equal to the handler's
return value. -/
theorem claim_C2_parse_success {I P C V D : Type} (opts : SafeClientOpts C V)
    (schema : I → ParseResult P) (serverCode : P → CtxVal C → Outcome V D)
    (i : I) (p : P) (ctr : List (Effect P C V)) (ctx : CtxVal C) (d : D)
    (hparse : schema i = ParseResult.success p)
    (hctx : buildCtxStep (P := P) opts = (ctr, Outcome.ok ctx))
    (hcode : serverCode p ctx = Outcome.ok d) :
    (runAction opts schema serverCode i).2 = Outcome.ok { data? := some d } ∧
    (runAction opts schema serverCode i).1.filter isServerCodeCall
      = [Effect.serverCodeCall p ctx] ∧
    (opts.buildContext? = none → ctx = CtxVal.empty) ∧
    (∀ c, opts.buildContext? = some (Outcome.ok c) → ctx = CtxVal.built c) := by
  have hrun : runAction opts schema serverCode i
      = (ctr ++ [Effect.serverCodeCall p ctx], Outcome.ok { data? := some d }) := by
    simp only [runAction, hparse,
      tryBody_success_ok opts serverCode p ctr ctx d hctx hcode, runWithCatch]
  refine ⟨by rw [hrun], ?_, ?_, ?_⟩
  · rw [hrun]
    rcases buildCtxStep_trace opts ctr _ hctx with h2 | h2 <;> subst h2 <;>
      simp [isServerCodeCall]
  · intro hb
    have hempty : buildCtxStep (P := P) (C := C) (V := V) opts
        = ([], Outcome.ok CtxVal.empty) := by
      simp [buildCtxStep, hb]
    rw [hctx] at hempty
    injection hempty with h1 h2
    exact Outcome.ok.inj h2
  · intro c hb
    have hbuilt : buildCtxStep (P := P) (C := C) (V := V) opts
        = ([Effect.buildContextCall], Outcome.ok (CtxVal.built c)) := by
      simp [buildCtxStep, hb]
    rw [hctx] at hbuilt
    injection hbuilt with h1 h2
    exact Outcome.ok.inj h2

/-- Witness for C2 with a present `buildContext` and a schema whose
parsed value differs from the raw input. -/
theorem claim_C2_parse_success_witness :
    (runAction ({ buildContext? := some (Outcome.ok 3) } : SafeClientOpts Nat Nat)
        (fun n : Nat => ParseResult.success (n + 1))
        (fun p _ => Outcome.ok (p * 10)) 4).2
      = Outcome.ok { data? := some 50 } ∧
    (runAction ({ buildContext? := some (Outcome.ok 3) } : SafeClientOpts Nat Nat)
        (fun n : Nat => ParseResult.success (n + 1))
        (fun p _ => Outcome.ok (p * 10)) 4).1.filter isServerCodeCall
      = [Effect.serverCodeCall 5 (CtxVal.built 3)] ∧
    (({ buildContext? := some (Outcome.ok 3) } : SafeClientOpts Nat Nat).buildContext?
        = none → CtxVal.built 3 = CtxVal.empty) ∧
    (∀ c, ({ buildContext? := some (Outcome.ok 3) } : SafeClientOpts Nat Nat).buildContext?
        = some (Outcome.ok c) → CtxVal.built 3 = CtxVal.built c) :=
  claim_C2_parse_success _ _ _ _ _ _ _ _ rfl rfl rfl

/-! ## C3: navigation signals are rethrown unchanged -/

/-- C3: when a navigation signal (redirect or not-found) is thrown during
context construction or during handler execution, the built action's
promise rejects with that same value unchanged, and the trace contains
no logging effect at all (no log hook, no returned-server-error mapper,
no console output). -/
theorem claim_C3_navigation_rethrow {I P C V D : Type} (opts : SafeClientOpts C V)
    (schema : I → ParseResult P) (serverCode : P → CtxVal C → Outcome V D)
    (i : I) (p : P) (e : Thrown V)
    (hparse : schema i = ParseResult.success p)
    (hnav : (isNextRedirectError e || isNextNotFoundError e) = true)
    (hsrc : (∃ ctr, buildCtxStep (P := P) opts = (ctr, Outcome.thrown e)) ∨
            (∃ ctr ctx, buildCtxStep (P := P) opts = (ctr, Outcome.ok ctx) ∧
               serverCode p ctx = Outcome.thrown e)) :
    (runAction opts schema serverCode i).2 = Outcome.thrown e ∧
    ∀ eff ∈ (runAction opts schema serverCode i).1,
      isLoggingEffect eff = false := by
  have key : ∀ tr0, tryBody opts serverCode (schema i)
      = (tr0, Outcome.thrown e) →
      (runAction opts schema serverCode i).2 = Outcome.thrown e ∧
      ∀ eff ∈ (runAction opts schema serverCode i).1,
        isLoggingEffect eff = false := by
    intro tr0 htry
    have hrun : runAction opts schema serverCode i = (tr0, Outcome.thrown e) := by
      simp only [runAction, htry, runWithCatch, catchBlock_nav opts e hnav,
        List.append_nil]
    rw [hrun]
    exact ⟨rfl, tryBody_no_logging opts serverCode (schema i) tr0 _ htry⟩
  rcases hsrc with ⟨ctr, hc⟩ | ⟨ctr, ctx, hc, hs⟩
  · exact key ctr
      (by rw [hparse]; exact tryBody_ctx_thrown opts serverCode p ctr e hc)
  · exact key (ctr ++ [Effect.serverCodeCall p ctx])
      (by rw [hparse];
          exact tryBody_success_thrown opts serverCode p ctr ctx e hc hs)

/-- Witness for C3 with a handler that throws the redirect signal. -/
theorem claim_C3_navigation_rethrow_witness :
    (runAction ({} : SafeClientOpts Unit Nat)
        (fun n : Nat => ParseResult.success n)
        (fun _ _ => (Outcome.thrown Thrown.redirectSignal : Outcome Nat Nat))
        0).2
      = Outcome.thrown Thrown.redirectSignal ∧
    isLoggingEffect
        (Effect.serverCodeCall 0 (CtxVal.empty : CtxVal Unit) : Effect Nat Unit Nat)
      = false := by
  have h := claim_C3_navigation_rethrow ({} : SafeClientOpts Unit Nat)
    (fun n : Nat => ParseResult.success n)
    (fun _ _ => (Outcome.thrown Thrown.redirectSignal : Outcome Nat Nat))
    0 0 Thrown.redirectSignal rfl rfl (Or.inr ⟨[], CtxVal.empty, rfl, rfl⟩)
  exact ⟨h.1, h.2 _ (by decide)⟩

/-! ## C4: default error handling on a proper error -/

/-- C4: when the handler throws a proper `Error` and neither
`handleReturnedServerError` nor `handleServerErrorLog` is configured, the
built action resolves to the generic `serverError` result, and the
default logging hook is invoked exactly once with the original thrown
error (writing its message to `console.error`), before the result is
returned: the trace lists the log hook call and the console write between
the server code call and the returned-error mapper call. -/
theorem claim_C4_default_error_handling {I P C V D : Type}
    (opts : SafeClientOpts C V) (schema : I → ParseResult P)
    (serverCode : P → CtxVal C → Outcome V D) (i : I) (p : P)
    (ctr : List (Effect P C V)) (ctx : CtxVal C) (err : ErrObj)
    (hlog : opts.handleServerErrorLog? = none)
    (hret : opts.handleReturnedServerError? = none)
    (hparse : schema i = ParseResult.success p)
    (hctx : buildCtxStep (P := P) opts = (ctr, Outcome.ok ctx))
    (hcode : serverCode p ctx = Outcome.thrown (Thrown.errorVal err)) :
    runAction opts schema serverCode i
      = (ctr ++ [Effect.serverCodeCall p ctx,
                 Effect.serverErrorLogCall err,
                 Effect.consoleError ("Action error: " ++ err.message),
                 Effect.returnedServerErrorCall err],
         Outcome.ok { serverError? := some DEFAULT_SERVER_ERROR }) ∧
    ((runAction opts schema serverCode i).1.filter (isLogCallOf err)).length
      = 1 := by
  have hrun : runAction opts schema serverCode i
      = ((ctr ++ [Effect.serverCodeCall p ctx])
          ++ [Effect.serverErrorLogCall err,
              Effect.consoleError ("Action error: " ++ err.message),
              Effect.returnedServerErrorCall err],
         Outcome.ok { serverError? := some DEFAULT_SERVER_ERROR }) := by
    simp only [runAction, hparse,
      tryBody_success_thrown opts serverCode p ctr ctx _ hctx hcode,
      runWithCatch, catchBlock_error_default opts err hlog hret]
  constructor
  · rw [hrun]
    simp [List.append_assoc]
  · rw [hrun]
    rcases buildCtxStep_trace opts ctr _ hctx with h2 | h2 <;> subst h2 <;>
      simp [isLogCallOf]

/-- Witness for C4 with a handler that throws a proper error under the
default configuration. -/
theorem claim_C4_default_error_handling_witness :
    runAction ({} : SafeClientOpts Unit Nat)
        (fun n : Nat => ParseResult.success n)
        (fun _ _ =>
          (Outcome.thrown (Thrown.errorVal ⟨"boom"⟩) : Outcome Nat Nat)) 0
      = ([] ++ [Effect.serverCodeCall 0 CtxVal.empty,
          Effect.serverErrorLogCall ⟨"boom"⟩,
          Effect.consoleError ("Action error: " ++ "boom"),
          Effect.returnedServerErrorCall ⟨"boom"⟩],
         Outcome.ok { serverError? := some DEFAULT_SERVER_ERROR }) ∧
    ((runAction ({} : SafeClientOpts Unit Nat)
        (fun n : Nat => ParseResult.success n)
        (fun _ _ =>
          (Outcome.thrown (Thrown.errorVal ⟨"boom"⟩) : Outcome Nat Nat))
        0).1.filter (isLogCallOf ⟨"boom"⟩)).length = 1 :=
  claim_C4_default_error_handling ({} : SafeClientOpts Unit Nat)
    (fun n : Nat => ParseResult.success n)
    (fun _ _ => (Outcome.thrown (Thrown.errorVal ⟨"boom"⟩) : Outcome Nat Nat))
    0 0 [] CtxVal.empty ⟨"boom"⟩ rfl rfl rfl rfl rfl

/-! ## C5: non-error thrown values degrade to the generic message -/

/-- C5: when a thrown value is neither a navigation signal nor a proper
`Error` object, the built action logs a `console.warn` diagnostic and
resolves to the generic `serverError` result, and the trace contains no
`handleServerErrorLog` call and no `handleReturnedServerError` call
(whatever hooks are configured), so the arbitrary thrown value never
reaches the client. -/
theorem claim_C5_non_error_degrades {I P C V D : Type}
    (opts : SafeClientOpts C V) (schema : I → ParseResult P)
    (serverCode : P → CtxVal C → Outcome V D) (i : I) (v : V)
    (tr : List (Effect P C V))
    (htry : tryBody opts serverCode (schema i)
      = (tr, Outcome.thrown (Thrown.nonError v))) :
    runAction opts schema serverCode i
      = (tr ++ [Effect.consoleWarn (Thrown.nonError v)],
         Outcome.ok { serverError? := some DEFAULT_SERVER_ERROR }) ∧
    ∀ eff ∈ (runAction opts schema serverCode i).1,
      isServerErrorLogCall eff = false ∧
      isReturnedServerErrorCall eff = false := by
  have hrun : runAction opts schema serverCode i
      = (tr ++ [Effect.consoleWarn (Thrown.nonError v)],
         Outcome.ok { serverError? := some DEFAULT_SERVER_ERROR }) := by
    simp only [runAction, htry, runWithCatch, catchBlock_nonError]
  refine ⟨hrun, ?_⟩
  rw [hrun]
  intro eff hm
  rcases List.mem_append.1 hm with hm | hm
  · have hlg := tryBody_no_logging opts serverCode (schema i) tr _ htry eff hm
    cases eff <;> simp [isLoggingEffect] at hlg <;>
      simp [isServerErrorLogCall, isReturnedServerErrorCall]
  · simp at hm
    subst hm
    exact ⟨rfl, rfl⟩

/-- Witness for C5 with a handler that throws a bare number. -/
theorem claim_C5_non_error_degrades_witness :
    runAction ({ handleServerErrorLog? := some (fun _ => Outcome.thrown (Thrown.nonError 7)) } : SafeClientOpts Unit Nat)
        (fun n : Nat => ParseResult.success n)
        (fun _ _ => (Outcome.thrown (Thrown.nonError 9) : Outcome Nat Nat)) 0
      = ([Effect.serverCodeCall 0 CtxVal.empty,
          Effect.consoleWarn (Thrown.nonError 9)],
         Outcome.ok { serverError? := some DEFAULT_SERVER_ERROR }) ∧
    isServerErrorLogCall
        (Effect.serverCodeCall 0 (CtxVal.empty : CtxVal Unit) : Effect Nat Unit Nat)
      = false ∧
    isReturnedServerErrorCall
        (Effect.serverCodeCall 0 (CtxVal.empty : CtxVal Unit) : Effect Nat Unit Nat)
      = false := by
  have h := claim_C5_non_error_degrades
    ({ handleServerErrorLog? := some (fun _ => Outcome.thrown (Thrown.nonError 7)) } : SafeClientOpts Unit Nat)
    (fun n : Nat => ParseResult.success n)
    (fun _ _ => (Outcome.thrown (Thrown.nonError 9) : Outcome Nat Nat))
    0 9 [Effect.serverCodeCall 0 CtxVal.empty] rfl
  exact ⟨h.1, (h.2 _ (by rw [h.1]; exact List.mem_cons_self _ _)).1,
    (h.2 _ (by rw [h.1]; exact List.mem_cons_self _ _)).2⟩

/-! ## C6: rejection discipline of the built action -/

/-- When the configured error hooks never throw, the `catch` block can
only rethrow the navigation signal it received. -/
theorem catchBlock_thrown_nav {P C V D : Type} (opts : SafeClientOpts C V)
    (hlog : ∀ f, opts.handleServerErrorLog? = some f →
      ∀ err, ∃ u, f err = Outcome.ok u)
    (hret : ∀ f, opts.handleReturnedServerError? = some f →
      ∀ err, ∃ pay, f err = Outcome.ok pay)
    (e t : Thrown V)
    (h : (catchBlock (P := P) (D := D) opts e).2 = Outcome.thrown t) :
    (isNextRedirectError t || isNextNotFoundError t) = true := by
  by_cases hnav : (isNextRedirectError e || isNextNotFoundError e) = true
  · rw [catchBlock_nav opts e hnav] at h
    cases Outcome.thrown.inj h
    exact hnav
  · have hnav2 : (isNextRedirectError e || isNextNotFoundError e) = false :=
      Bool.not_eq_true _ ▸ eq_false_of_ne_true hnav
    cases e with
    | redirectSignal => simp [isNextRedirectError] at hnav2
    | notFoundSignal => simp [isNextNotFoundError] at hnav2
    | nonError v => rw [catchBlock_nonError] at h; cases h
    | errorVal err =>
        have hcb : catchBlock (P := P) (D := D) opts (Thrown.errorVal err)
            = afterLogHook opts err (handleServerErrorLogResolved opts err) := by
          simp [catchBlock, isNextRedirectError, isNextNotFoundError]
        rw [hcb] at h
        have hlogok : ∃ ltr, handleServerErrorLogResolved (P := P) (C := C)
            (V := V) opts err = (ltr, Outcome.ok ()) := by
          rcases hL : opts.handleServerErrorLog? with _ | f
          · exact ⟨[Effect.consoleError ("Action error: " ++ err.message)],
              by simp [handleServerErrorLogResolved, hL]⟩
          · obtain ⟨u, hu⟩ := hlog f hL err
            exact ⟨[], by simp [handleServerErrorLogResolved, hL, hu]⟩
        obtain ⟨ltr, hstep⟩ := hlogok
        rw [hstep] at h
        have hretok : ∃ pay, handleReturnedServerErrorResolved opts err
            = Outcome.ok pay := by
          rcases hR : opts.handleReturnedServerError? with _ | f
          · exact ⟨⟨DEFAULT_SERVER_ERROR⟩,
              by simp [handleReturnedServerErrorResolved, hR]⟩
          · obtain ⟨pay, hp⟩ := hret f hR err
            exact ⟨pay, by simp [handleReturnedServerErrorResolved, hR, hp]⟩
        obtain ⟨pay, hrstep⟩ := hretok
        simp only [afterLogHook, hrstep, afterReturnedHook] at h
        cases h

/-- C6 (amended): provided the configured `handleServerErrorLog` and
`handleReturnedServerError` hooks never themselves throw, the built
action's promise rejects only with a navigation signal: every other
failure — a failing parse, a throwing `buildContext`, a throwing handler,
a thrown non-`Error` value — is converted into a resolved result.  (As
the counterexample shows, a throw from one of the two configured error
hooks escapes the wrapper, because the `catch` block's own `await`s are
unguarded.) -/
theorem claim_C6_amended_no_rejection {I P C V D : Type}
    (opts : SafeClientOpts C V) (schema : I → ParseResult P)
    (serverCode : P → CtxVal C → Outcome V D) (i : I)
    (hlog : ∀ f, opts.handleServerErrorLog? = some f →
      ∀ err, ∃ u, f err = Outcome.ok u)
    (hret : ∀ f, opts.handleReturnedServerError? = some f →
      ∀ err, ∃ pay, f err = Outcome.ok pay)
    (e : Thrown V)
    (h : (runAction opts schema serverCode i).2 = Outcome.thrown e) :
    (isNextRedirectError e || isNextNotFoundError e) = true := by
  unfold runAction at h
  rcases htb : tryBody opts serverCode (schema i) with ⟨tr, out⟩
  rw [htb] at h
  rcases out with r0 | e0
  · have h2 : Outcome.ok r0 = Outcome.thrown e := h
    cases h2
  · have h2 : (catchBlock (P := P) (D := D) opts e0).2 = Outcome.thrown e := h
    exact catchBlock_thrown_nav opts hlog hret e0 e h2

/-- Witness for the amended C6: with no hooks configured and a handler
that throws the redirect signal, the promise rejects, and the rejection
is indeed the navigation signal. -/
theorem claim_C6_amended_no_rejection_witness :
    (runAction ({} : SafeClientOpts Unit Nat)
        (fun n : Nat => ParseResult.success n)
        (fun _ _ => (Outcome.thrown Thrown.redirectSignal : Outcome Nat Nat))
        0).2
      = Outcome.thrown Thrown.redirectSignal ∧
    (isNextRedirectError (Thrown.redirectSignal : Thrown Nat)
      || isNextNotFoundError (Thrown.redirectSignal : Thrown Nat)) = true :=
  ⟨rfl,
   claim_C6_amended_no_rejection ({} : SafeClientOpts Unit Nat)
     (fun n : Nat => ParseResult.success n)
     (fun _ _ => (Outcome.thrown Thrown.redirectSignal : Outcome Nat Nat)) 0
     (fun _ hf => Option.noConfusion hf) (fun _ hf => Option.noConfusion hf)
     Thrown.redirectSignal rfl⟩

/-- Counterexample to C6 as stated: with a configured
`handleServerErrorLog` that itself throws a non-`Error` value, a handler
throwing a proper error makes the built action's promise reject with the
hook's thrown value, which is not a navigation signal. -/
theorem claim_C6_counterexample_hook_throw :
    (runAction ({ handleServerErrorLog? := some (fun _ => Outcome.thrown (Thrown.nonError 99)) } : SafeClientOpts Unit Nat)
        (fun n : Nat => ParseResult.success n)
        (fun _ _ =>
          (Outcome.thrown (Thrown.errorVal ⟨"boom"⟩) : Outcome Nat Nat)) 0).2
      = Outcome.thrown (Thrown.nonError 99) ∧
    isNextRedirectError (Thrown.nonError (99 : Nat)) = false ∧
    isNextNotFoundError (Thrown.nonError (99 : Nat)) = false :=
  ⟨rfl, rfl, rfl⟩

/-! ## C8: at most one variant, and never a server-side fetch error -/

/-- The `try` body resolves only to a pure validation error result or a
pure data result. -/
theorem tryBody_ok_shape {P C V D : Type} (opts : SafeClientOpts C V)
    (serverCode : P → CtxVal C → Outcome V D) (parsed : ParseResult P)
    (tr : List (Effect P C V)) (r : ActionResult D V)
    (h : tryBody opts serverCode parsed = (tr, Outcome.ok r)) :
    (∃ fe, r = { validationError? := some fe }) ∨
    (∃ d, r = { data? := some d }) := by
  rcases parsed with p | fe
  · rcases hbc : buildCtxStep (P := P) opts with ⟨ctr, cout⟩
    rcases cout with ctx | e2
    · rcases hsc : serverCode p ctx with d | e3
      · rw [tryBody_success_ok opts serverCode p ctr ctx d hbc hsc] at h
        injection h with h1 h2
        exact Or.inr ⟨d, (Outcome.ok.inj h2).symm⟩
      · rw [tryBody_success_thrown opts serverCode p ctr ctx e3 hbc hsc] at h
        injection h with h1 h2
        cases h2
    · rw [tryBody_ctx_thrown opts serverCode p ctr e2 hbc] at h
      injection h with h1 h2
      cases h2
  · rw [tryBody_failure opts serverCode fe] at h
    injection h with h1 h2
    exact Or.inl ⟨fe, (Outcome.ok.inj h2).symm⟩

/-- The `catch` block resolves only to a pure server error result. -/
theorem catchBlock_ok_shape {P C V D : Type} (opts : SafeClientOpts C V)
    (e : Thrown V) (r : ActionResult D V)
    (h : (catchBlock (P := P) (D := D) opts e).2 = Outcome.ok r) :
    ∃ s, r = { serverError? := some s } := by
  by_cases hnav : (isNextRedirectError e || isNextNotFoundError e) = true
  · rw [catchBlock_nav opts e hnav] at h
    cases h
  · cases e with
    | redirectSignal => simp [isNextRedirectError] at hnav
    | notFoundSignal => simp [isNextNotFoundError] at hnav
    | nonError v =>
        rw [catchBlock_nonError] at h
        exact ⟨DEFAULT_SERVER_ERROR, (Outcome.ok.inj h).symm⟩
    | errorVal err =>
        have hcb : catchBlock (P := P) (D := D) opts (Thrown.errorVal err)
            = afterLogHook opts err (handleServerErrorLogResolved opts err) := by
          simp [catchBlock, isNextRedirectError, isNextNotFoundError]
        rw [hcb] at h
        rcases hstep : handleServerErrorLogResolved (P := P) (C := C) (V := V)
            opts err with ⟨ltr, lout⟩
        rw [hstep] at h
        rcases lout with u | t
        · rcases hrstep : handleReturnedServerErrorResolved opts err
              with pay | t2
          · simp only [afterLogHook, hrstep, afterReturnedHook] at h
            exact ⟨pay.serverError, (Outcome.ok.inj h).symm⟩
          · simp only [afterLogHook, hrstep, afterReturnedHook] at h
            cases h
        · simp only [afterLogHook] at h
          cases h

/-- C8: every result the server-side built action resolves to has at
most one of the four variants populated, and its `fetchError` variant is
never populated (that variant is set only by the client-side hooks). -/
theorem claim_C8_result_shape {I P C V D : Type} (opts : SafeClientOpts C V)
    (schema : I → ParseResult P) (serverCode : P → CtxVal C → Outcome V D)
    (i : I) (r : ActionResult D V)
    (h : (runAction opts schema serverCode i).2 = Outcome.ok r) :
    variantCount r ≤ 1 ∧ r.fetchError? = none := by
  have hshape : (∃ fe, r = { validationError? := some fe }) ∨
      (∃ d, r = { data? := some d }) ∨
      (∃ s, r = { serverError? := some s }) := by
    unfold runAction at h
    rcases htb : tryBody opts serverCode (schema i) with ⟨tr, out⟩
    rw [htb] at h
    rcases out with r0 | e0
    · have h2 : Outcome.ok r0 = Outcome.ok r := h
      cases Outcome.ok.inj h2
      rcases tryBody_ok_shape opts serverCode (schema i) tr _ htb with
        ⟨fe, hr⟩ | ⟨d, hr⟩
      · exact Or.inl ⟨fe, hr⟩
      · exact Or.inr (Or.inl ⟨d, hr⟩)
    · have h2 : (catchBlock (P := P) (D := D) opts e0).2 = Outcome.ok r := h
      obtain ⟨s, hr⟩ := catchBlock_ok_shape opts e0 r h2
      exact Or.inr (Or.inr ⟨s, hr⟩)
  rcases hshape with ⟨fe, rfl⟩ | ⟨d, rfl⟩ | ⟨s, rfl⟩ <;>
    exact ⟨by simp [variantCount], rfl⟩

/-- Witness for C8 at a concrete parse-failure run. -/
theorem claim_C8_result_shape_witness :
    variantCount ({ validationError? := some [("x", ["m"])] } : ActionResult Nat Nat) ≤ 1 ∧
    ({ validationError? := some [("x", ["m"])] } : ActionResult Nat Nat).fetchError? = none :=
  claim_C8_result_shape ({} : SafeClientOpts Unit Nat)
    (fun _ : Nat => ParseResult.failure (P := Nat) [("x", ["m"])])
    (fun _ _ => Outcome.ok (0 : Nat)) 0 _ rfl

/-! ## C9: callback firing discipline of useActionCallbacks -/

/-- The commit never changes either callback ref. -/
theorem useActionCallbacksCommit_refs {J D V : Type} (st : CallbacksState)
    (status : HookActionStatus) (respId : Nat) (r : ActionResult D V)
    (inp : Option J) :
    (useActionCallbacksCommit st status respId r inp).1.onSuccessRef
      = st.onSuccessRef ∧
    (useActionCallbacksCommit st status respId r inp).1.onErrorRef
      = st.onErrorRef := by
  unfold useActionCallbacksCommit
  split
  · exact ⟨rfl, rfl⟩
  · exact ⟨rfl, rfl⟩

/-- Every fire produced by the effect body invokes the callback held in
the corresponding ref. -/
theorem effectFires_mem {J D V : Type} (sRef eRef : Option Nat)
    (status : HookActionStatus) (r : ActionResult D V) (inp : Option J)
    (ev : FireEvent J D V) (hm : ev ∈ effectFires sRef eRef status r inp) :
    (isSuccessFire ev = true → sRef = some (fireCbId ev)) ∧
    (isSuccessFire ev = false → eRef = some (fireCbId ev)) := by
  rcases sRef with _ | sId <;> rcases eRef with _ | eId <;> cases status <;>
    simp [effectFires] at hm <;> subst hm <;>
      simp [isSuccessFire, fireCbId]

/-- Every fire produced by a commit invokes the callback held in the
corresponding ref of the state before the commit. -/
theorem useActionCallbacksCommit_mem {J D V : Type} (st : CallbacksState)
    (status : HookActionStatus) (respId : Nat) (r : ActionResult D V)
    (inp : Option J) (ev : FireEvent J D V)
    (hm : ev ∈ (useActionCallbacksCommit st status respId r inp).2) :
    (isSuccessFire ev = true → st.onSuccessRef = some (fireCbId ev)) ∧
    (isSuccessFire ev = false → st.onErrorRef = some (fireCbId ev)) := by
  unfold useActionCallbacksCommit at hm
  split at hm
  · simp at hm
  · exact effectFires_mem _ _ _ _ _ _ hm

/-- Over a whole render sequence, every fire invokes a callback held in
the refs of the starting state. -/
theorem runCallbacksFrom_refs {J D V : Type}
    (renders : List (RenderInput J D V)) :
    ∀ (st : CallbacksState) (ev : FireEvent J D V),
      ev ∈ runCallbacksFrom st renders →
      (isSuccessFire ev = true → st.onSuccessRef = some (fireCbId ev)) ∧
      (isSuccessFire ev = false → st.onErrorRef = some (fireCbId ev)) := by
  induction renders with
  | nil =>
      intro st ev hm
      simp [runCallbacksFrom] at hm
  | cons r rest ih =>
      intro st ev hm
      rw [runCallbacksFrom] at hm
      rcases List.mem_append.1 hm with hm | hm
      · exact useActionCallbacksCommit_mem st r.status r.respId r.response
          r.input? ev hm
      · have hrefs := useActionCallbacksCommit_refs st r.status r.respId
          r.response r.input?
        have := ih _ ev hm
        rw [hrefs.1, hrefs.2] at this
        exact this

/-- C9 (amended): the `useActionCallbacks` effect fires only when its
dependency tuple (status, response identity) changed since the last run —
a re-render with unchanged dependencies fires nothing, so callbacks are
not invoked on every render and a transition never fires twice; and the
callback invoked is always the reference captured by `useRef` on the
first render: the refs are never updated, so a callback reference passed
on a later render is never the one invoked. -/
theorem claim_C9_transition_edge_initial_ref {J D V : Type} :
    (∀ (st : CallbacksState) (status : HookActionStatus) (respId : Nat)
        (r : ActionResult D V) (inp : Option J),
        st.prevDeps? = some (status, respId) →
        useActionCallbacksCommit st status respId r inp = (st, [])) ∧
    (∀ (r0 : RenderInput J D V) (rest : List (RenderInput J D V))
        (ev : FireEvent J D V), ev ∈ runCallbacks (r0 :: rest) →
        (isSuccessFire ev = true →
          r0.cb?.bind Cb.onSuccess? = some (fireCbId ev)) ∧
        (isSuccessFire ev = false →
          r0.cb?.bind Cb.onError? = some (fireCbId ev))) := by
  constructor
  · intro st status respId r inp hdeps
    unfold useActionCallbacksCommit
    rw [if_pos hdeps]
  · intro r0 rest ev hm
    exact runCallbacksFrom_refs (r0 :: rest) (useActionCallbacksInit r0.cb?)
      ev hm

/-- Witness for the amended C9: a repeated render with unchanged
dependencies fires nothing, and the fire of a concrete two-render
lifetime invokes the mount-time callback. -/
theorem claim_C9_transition_edge_initial_ref_witness :
    useActionCallbacksCommit
        ({ onSuccessRef := some 1, onErrorRef := none,
           prevDeps? := some (HookActionStatus.hasSucceded, 1) })
        HookActionStatus.hasSucceded 1
        ({ data? := some 42 } : ActionResult Nat Nat) (some (7 : Nat))
      = ({ onSuccessRef := some 1, onErrorRef := none,
           prevDeps? := some (HookActionStatus.hasSucceded, 1) }, []) ∧
    (some ({ onSuccess? := some 1 } : Cb)).bind Cb.onSuccess? = some 1 := by
  constructor
  · exact (@claim_C9_transition_edge_initial_ref Nat Nat Nat).1
      _ HookActionStatus.hasSucceded 1 _ _ rfl
  · exact ((@claim_C9_transition_edge_initial_ref Nat Nat Nat).2
      ({ cb? := some { onSuccess? := some 1 }, status := HookActionStatus.idle,
         respId := 0, response := {}, input? := none })
      [{ cb? := some { onSuccess? := some 2 },
         status := HookActionStatus.hasSucceded, respId := 1,
         response := { data? := some 42 }, input? := some 7 }]
      (FireEvent.successFire 1 (some 42) (some 7)) (by decide)).1 rfl

/-- Counterexample to C9 as stated: the callbacks passed on the first
render hold reference 1, the re-render passes reference 2, and the fire
on the transition into `hasSucceded` invokes reference 1 — not the
latest reference 2. -/
theorem claim_C9_counterexample_stale_ref :
    runCallbacks
        [{ cb? := some { onSuccess? := some 1 }, status := HookActionStatus.idle,
           respId := 0, response := ({} : ActionResult Nat Nat), input? := (none : Option Nat) },
         { cb? := some { onSuccess? := some 2 },
           status := HookActionStatus.hasSucceded, respId := 1,
           response := { data? := some 42 }, input? := some 7 }]
      = [FireEvent.successFire 1 (some 42) (some 7)] ∧
    (1 : Nat) ≠ 2 := by
  exact ⟨rfl, by decide⟩

/-! ## C10: reset clears only the response -/

/-- C10: in both `useAction` and `useOptimisticAction`, `reset` stores a
fresh empty response and changes nothing else: the stored input (and the
executing flag) are left unchanged; consequently, in a concrete
`useAction` lifetime where a stale action promise settles after `reset`,
the callback fires with the input of the previous `execute` call. -/
theorem claim_C10_reset_keeps_input :
    (∀ (J D V : Type) (s : UseActionState J D V),
      (useActionReset s).response = ({} : ActionResult D V) ∧
      (useActionReset s).input? = s.input? ∧
      (useActionReset s).isExecuting = s.isExecuting) ∧
    (∀ (J D V : Type) (s : UseOptimisticState J D V),
      (useOptimisticReset s).response = ({} : ActionResult D V) ∧
      (useOptimisticReset s).input? = s.input? ∧
      (useOptimisticReset s).optIsExecuting = s.optIsExecuting) ∧
    simUseAction (J := Nat) (D := Nat) (V := Nat)
        (some { onSuccess? := some 5 })
        [HookEvent.execStart 7, HookEvent.settle { data? := some 1 },
         HookEvent.doReset, HookEvent.settle { data? := some 2 }]
      = [FireEvent.successFire 5 (some 1) (some 7),
         FireEvent.successFire 5 (some 2) (some 7)] := by
  refine ⟨?_, ?_, rfl⟩
  · intro J D V s
    exact ⟨rfl, rfl, rfl⟩
  · intro J D V s
    exact ⟨rfl, rfl, rfl⟩

end NextSafeAction
